import Mathlib

/-
Shallow embedding of the veidemann-frontier-queue-workers reconciliation core.

Sources embedded here:
  * lua/chg_delayed_queue.lua       -- the atomic delayed-move script
  * database/database.go            -- the five reconciliation operations

Modelling conventions:
  * A redis sorted set (zset) is a list of (member, score) pairs kept in the
    store's iteration order (ascending score, ties by member); member
    uniqueness and orderedness are intrinsic zset invariants and appear as
    hypotheses of the theorems.
  * A redis list is a Lean list, head = left end.
  * The durable store (rethinkdb tables) is an association list from key to
    document; a write reports the number of actually-changed rows
    (rethinkdb's "replaced" counter: updating a row to its current value, a
    missing row, or an update function returning nil all report 0).
  * Store calls that can fail at the transport layer (rethinkdb writes) are
    modelled by an oracle returning the post-state, the replaced count and an
    optional error string; the pure document semantics are separate
    definitions that are plugged into the oracle when a claim needs them.
  * Queue-store (redis) reads and writes are modelled as reliable: the claims
    under verification only exercise durable-store failures.
-/

namespace Veidemann

/-- One sorted-set entry: member and score, in store iteration order. -/
abbrev ZEntry := String × Int

/-- Embeds the redis call ZRANGEBYSCORE key min max: the members of the
entries whose score lies in [min, max], in iteration order. -/
def zrangebyscore (q : List ZEntry) (minScore maxScore : Int) : List String :=
  (q.filter fun e => decide (minScore ≤ e.2 ∧ e.2 ≤ maxScore)).map Prod.fst

/-- Embeds the redis call ZREM key member: drop the entry with that member. -/
def zrem (q : List ZEntry) (member : String) : List ZEntry :=
  q.filter fun e => decide (e.1 ≠ member)

/-- Embeds the redis call RPUSH key value: append at the right end. -/
def rpush (q : List String) (x : String) : List String :=
  q ++ [x]

/-- Result of one run of the delayed-move script: the two queues and the
returned moved count. -/
structure MoveResult where
  fromQueue : List ZEntry
  toQueue : List String
  moved : Nat
deriving DecidableEq

/-- Embeds lua/chg_delayed_queue.lua: res = ZRANGEBYSCORE(from, 0, now);
for each key in res: ZREM(from, key); RPUSH(to, key); moved = moved + 1;
return moved.  The whole script runs as one atomic step, which the pure
function models directly. -/
def chgDelayedQueue (fromQueue : List ZEntry) (toQueue : List String)
    (currentTimeMillis : Int) : MoveResult :=
  (zrangebyscore fromQueue 0 currentTimeMillis).foldl
    (fun st key => ⟨zrem st.fromQueue key, rpush st.toQueue key, st.moved + 1⟩)
    ⟨fromQueue, toQueue, 0⟩

/-- The loop of the script decomposes: draining the selected keys removes each
from the zset, appends each to the destination list and counts them. -/
lemma chgDelayedQueue_foldl (keys : List String) (f : List ZEntry) (t : List String) (c : Nat) :
    keys.foldl
      (fun st key => ⟨zrem st.fromQueue key, rpush st.toQueue key, st.moved + 1⟩)
      (⟨f, t, c⟩ : MoveResult) =
    ⟨keys.foldl zrem f, t ++ keys, c + keys.length⟩ := by
  induction keys generalizing f t c with
  | nil => simp
  | cons k ks ih =>
    simp only [List.foldl_cons]
    rw [ih]
    simp [MoveResult.mk.injEq, rpush]
    omega

/-- Folding ZREM over a set of members filters all of them out at once. -/
lemma foldl_zrem (keys : List String) (q : List ZEntry) :
    keys.foldl zrem q = q.filter (fun e => decide (e.1 ∉ keys)) := by
  induction keys generalizing q with
  | nil => simp
  | cons k ks ih =>
    simp only [List.foldl_cons, zrem, ih, List.filter_filter]
    refine List.filter_congr fun e _ => ?_
    by_cases h1 : e.1 = k <;> by_cases h2 : e.1 ∈ ks <;> simp [h1, h2]

/-- With distinct members, a member of the zset is selected by the score range
exactly when its own entry's score is in range. -/
lemma mem_zrangebyscore_iff (q : List ZEntry) (now : Int)
    (hnodup : (q.map Prod.fst).Nodup) (e : ZEntry) (he : e ∈ q) :
    e.1 ∈ zrangebyscore q 0 now ↔ (0 ≤ e.2 ∧ e.2 ≤ now) := by
  unfold zrangebyscore
  constructor
  · intro h
    obtain ⟨b, hb, hb1⟩ := List.mem_map.mp h
    have hbq : b ∈ q := List.mem_of_mem_filter hb
    have hbe : b = e := List.inj_on_of_nodup_map hnodup hbq he hb1
    subst hbe
    simpa using List.of_mem_filter hb
  · intro h
    exact List.mem_map.mpr ⟨e, List.mem_filter.mpr ⟨he, by simpa using h⟩, rfl⟩

/-- Under the zset invariants, the selected keys are the members of the
entries due at `now`, in queue order. -/
lemma zrangebyscore_eq_due (fromQueue : List ZEntry) (now : Int)
    (hscores : ∀ e ∈ fromQueue, 0 ≤ e.2) :
    zrangebyscore fromQueue 0 now =
      (fromQueue.filter (fun e => decide (e.2 ≤ now))).map Prod.fst := by
  unfold zrangebyscore
  congr 1
  refine List.filter_congr fun e he => ?_
  have h0 := hscores e he
  simp only [decide_eq_decide]
  omega

/-- C1: on a zset with distinct members, non-negative (epoch-millisecond)
scores and stored in ascending-score order, one run of chg_delayed_queue.lua
removes from `fromQueue` exactly the entries whose score is ≤ now, appends
their members to the tail of `toQueue` in ascending-score order, and returns
their number (0 when nothing is due). -/
theorem chgDelayedQueue_moves_exactly_due (fromQueue : List ZEntry)
    (toQueue : List String) (now : Int)
    (hnodup : (fromQueue.map Prod.fst).Nodup)
    (hscores : ∀ e ∈ fromQueue, 0 ≤ e.2)
    (hsorted : fromQueue.Pairwise (fun a b => a.2 ≤ b.2)) :
    chgDelayedQueue fromQueue toQueue now =
      ⟨fromQueue.filter (fun e => decide (now < e.2)),
       toQueue ++ (fromQueue.filter (fun e => decide (e.2 ≤ now))).map Prod.fst,
       (fromQueue.filter (fun e => decide (e.2 ≤ now))).length⟩ ∧
    (fromQueue.filter (fun e => decide (e.2 ≤ now))).Pairwise
      (fun a b => a.2 ≤ b.2) := by
  have hkeys := zrangebyscore_eq_due fromQueue now hscores
  refine ⟨?_, hsorted.filter _⟩
  unfold chgDelayedQueue
  rw [chgDelayedQueue_foldl, foldl_zrem]
  have hprune :
      fromQueue.filter (fun e => decide (e.1 ∉ zrangebyscore fromQueue 0 now)) =
      fromQueue.filter (fun e => decide (now < e.2)) := by
    refine List.filter_congr fun e he => ?_
    have hmem := mem_zrangebyscore_iff fromQueue now hnodup e he
    have h0 := hscores e he
    simp only [decide_eq_decide, hmem]
    omega
  rw [hprune, hkeys]
  simp

/-- Witness for C1: the spec scenario wait = [(A,100),(B,200)], now = 150
moves exactly A and reports 1. -/
theorem chgDelayedQueue_moves_exactly_due_witness :
    chgDelayedQueue [("A", 100), ("B", 200)] [] 150 = ⟨[("B", 200)], ["A"], 1⟩ := by
  have h := (chgDelayedQueue_moves_exactly_due [("A", 100), ("B", 200)] [] 150
    (by decide) (by decide) (by decide)).1
  rw [h]
  decide

/-- C8: with entries scored 10, 20, 30 and now = 20 the script moves exactly
the two due entries, leaves the entry scored 30 behind, and a second run with
the same now moves zero further entries. -/
theorem chgDelayedQueue_idempotent_fixed_now (a b c : String)
    (toQueue : List String) (hab : a ≠ b) (hac : a ≠ c) (hbc : b ≠ c) :
    chgDelayedQueue [(a, 10), (b, 20), (c, 30)] toQueue 20 =
      ⟨[(c, 30)], toQueue ++ [a, b], 2⟩ ∧
    chgDelayedQueue [(c, 30)] (toQueue ++ [a, b]) 20 =
      ⟨[(c, 30)], toQueue ++ [a, b], 0⟩ := by
  constructor
  · simp [chgDelayedQueue, zrangebyscore, zrem, rpush,
      hab, hac, hbc, Ne.symm hab, Ne.symm hac, Ne.symm hbc]
  · simp [chgDelayedQueue, zrangebyscore]

/-- Witness for C8 at members A, B, C and an empty destination queue. -/
theorem chgDelayedQueue_idempotent_fixed_now_witness :
    chgDelayedQueue [("A", 10), ("B", 20), ("C", 30)] [] 20 =
      ⟨[("C", 30)], ["A", "B"], 2⟩ ∧
    chgDelayedQueue [("C", 30)] ["A", "B"] 20 = ⟨[("C", 30)], ["A", "B"], 0⟩ :=
  chgDelayedQueue_idempotent_fixed_now "A" "B" "C" []
    (by decide) (by decide) (by decide)

/-- A rethinkdb table: association from primary key to document. -/
abbrev Store (α : Type) := List (String × α)

/-- Embeds Table.Get(key): the first (unique, in a well-formed table)
document under that key. -/
def storeGet {α : Type} : Store α → String → Option α
  | [], _ => none
  | e :: rest, k => if e.1 = k then some e.2 else storeGet rest k

/-- Replaces the document stored under an existing key; rows under other keys
are untouched (Get(key).Update never inserts). -/
def storeSet {α : Type} : Store α → String → α → Store α
  | [], _, _ => []
  | e :: rest, k, v =>
    if e.1 = k then (k, v) :: storeSet rest k v else e :: storeSet rest k v

lemma storeGet_storeSet_self {α : Type} (s : Store α) (k : String) (v : α)
    (d : α) (h : storeGet s k = some d) : storeGet (storeSet s k v) k = some v := by
  induction s with
  | nil => simp [storeGet] at h
  | cons e rest ih =>
    by_cases he : e.1 = k
    · simp [storeSet, storeGet, he]
    · simp [storeGet, he] at h
      simp [storeSet, storeGet, he, ih h]

lemma storeGet_storeSet_ne {α : Type} (s : Store α) (k k2 : String) (v : α)
    (h : k ≠ k2) : storeGet (storeSet s k v) k2 = storeGet s k2 := by
  induction s with
  | nil => simp [storeSet]
  | cons e rest ih =>
    by_cases he : e.1 = k
    · simp [storeSet, storeGet, he, h, ih]
    · by_cases he2 : e.1 = k2 <;>
        simp [storeSet, storeGet, he, he2, ih, Ne.symm h]

/-- A row of the durable executions table, with the fields the core touches:
endTime (present once the execution finished) and desiredState. -/
structure CrawlExecution where
  endTime : Option String
  desiredState : Option String
deriving DecidableEq

/-- The terminal job-execution states listed in updateJobExecution. -/
def terminalJobStates : List String :=
  ["FINISHED", "ABORTED_TIMEOUT", "ABORTED_SIZE", "ABORTED_MANUAL", "FAILED", "DIED"]

/-- A row of the durable job_executions table: its state field plus the
aggregate counter fields (documents crawled/denied/failed/…, per-state
execution counters), modelled as a name-to-value association. -/
structure JobExecutionDoc where
  state : String
  values : List (String × Int)
deriving DecidableEq

/-- One decoded cache entry as built by getJobExecutionStatuses: the JEID and
the numeric counter fields (including the executionsState sub-map) read from
the queue store's JEID hash. -/
structure JobExecutionStatus where
  id : String
  values : List (String × Int)
deriving DecidableEq

/-- Embeds updateJobExecution (database.go): Get(jes.id).Update(Branch(
terminal-states.Contains(doc.state), nil, jes)).  A missing row, a terminal
row (the Branch yields nil) or an update that leaves the document unchanged
reports 0 replaced rows; otherwise the cached values overwrite the document
and 1 replaced row is reported. -/
def updateJobExecution (store : Store JobExecutionDoc) (jes : JobExecutionStatus) :
    Store JobExecutionDoc × Nat :=
  match storeGet store jes.id with
  | none => (store, 0)
  | some doc =>
    if doc.state ∈ terminalJobStates then
      (store, 0)
    else
      let merged : JobExecutionDoc := ⟨doc.state, jes.values⟩
      if merged = doc then (store, 0)
      else (storeSet store jes.id merged, 1)

/-- Embeds setCrawlExecutionStateAbortedTimeout (database.go): Get(ceid)
.Update(Branch(doc.HasFields("endTime"), nil, {desiredState:
ABORTED_TIMEOUT})).  A missing row, a row whose endTime is present, or a row
already carrying the desired state reports 0 replaced rows; otherwise
desiredState is set and 1 replaced row is reported. -/
def setCrawlExecutionStateAbortedTimeout (store : Store CrawlExecution)
    (crawlExecutionId : String) : Store CrawlExecution × Nat :=
  match storeGet store crawlExecutionId with
  | none => (store, 0)
  | some doc =>
    if doc.endTime.isSome then
      (store, 0)
    else
      let updated : CrawlExecution := ⟨doc.endTime, some "ABORTED_TIMEOUT"⟩
      if updated = doc then (store, 0)
      else (storeSet store crawlExecutionId updated, 1)

/-- Result of one TimeoutCrawlExecutions cycle: the durable-store state, the
returned count, the timeout queue left behind, and the returned error. -/
structure TimeoutResult (σ : Type) where
  store : σ
  count : Nat
  queue : List String
  err : Option String
deriving DecidableEq

/-- Embeds the drain loop of TimeoutCrawlExecutions (database.go).  The CEID
timeout queue is the list argument (head = LPop side); `upd` abstracts
setCrawlExecutionStateAbortedTimeout behind the retrying execWrite transport,
returning the post-state of the durable store, the replaced count and an
optional transport error; `rollback` abstracts the recovery RPush (none =
success).  On update success the loop continues with count += replaced; on
update failure the popped id is RPushed back and the loop breaks returning
(count, nil); if that RPush also fails the loop returns count and the fatal
combined error built by fmt.Errorf in the source. -/
def timeoutCrawlExecutionsLoop {σ : Type}
    (upd : σ → String → σ × Nat × Option String)
    (rollback : String → Option String) :
    List String → σ → Nat → TimeoutResult σ
  | [], s, count => ⟨s, count, [], none⟩
  | ceid :: rest, s, count =>
    match upd s ceid with
    | (s2, replaced, none) =>
      timeoutCrawlExecutionsLoop upd rollback rest s2 (count + replaced)
    | (s2, _, some e) =>
      match rollback ceid with
      | none => ⟨s2, count, rest ++ [ceid], none⟩
      | some rollbackErr =>
        ⟨s2, count, rest,
          some (e ++ ":  " ++ rollbackErr ++ ": failed to recover ceid " ++
            ceid ++ " (must be inserted into timeout queue manually):")⟩

/-- Embeds TimeoutCrawlExecutions (database.go): the drain loop started with
count = 0. -/
def TimeoutCrawlExecutions {σ : Type}
    (upd : σ → String → σ × Nat × Option String)
    (rollback : String → Option String) (queue : List String) (s : σ) :
    TimeoutResult σ :=
  timeoutCrawlExecutionsLoop upd rollback queue s 0

lemma timeoutLoop_cons_ok {σ : Type} (upd : σ → String → σ × Nat × Option String)
    (rollback : String → Option String) (ceid : String) (rest : List String)
    (s : σ) (count : Nat) (s2 : σ) (n : Nat) (h : upd s ceid = (s2, n, none)) :
    timeoutCrawlExecutionsLoop upd rollback (ceid :: rest) s count =
    timeoutCrawlExecutionsLoop upd rollback rest s2 (count + n) := by
  simp [timeoutCrawlExecutionsLoop, h]

lemma timeoutLoop_cons_rollback_ok {σ : Type}
    (upd : σ → String → σ × Nat × Option String)
    (rollback : String → Option String) (ceid : String) (rest : List String)
    (s : σ) (count : Nat) (s2 : σ) (n : Nat) (e : String)
    (h : upd s ceid = (s2, n, some e)) (hrb : rollback ceid = none) :
    timeoutCrawlExecutionsLoop upd rollback (ceid :: rest) s count =
      ⟨s2, count, rest ++ [ceid], none⟩ := by
  simp [timeoutCrawlExecutionsLoop, h, hrb]

lemma timeoutLoop_cons_rollback_fail {σ : Type}
    (upd : σ → String → σ × Nat × Option String)
    (rollback : String → Option String) (ceid : String) (rest : List String)
    (s : σ) (count : Nat) (s2 : σ) (n : Nat) (e rollbackErr : String)
    (h : upd s ceid = (s2, n, some e)) (hrb : rollback ceid = some rollbackErr) :
    timeoutCrawlExecutionsLoop upd rollback (ceid :: rest) s count =
      ⟨s2, count, rest,
        some (e ++ ":  " ++ rollbackErr ++ ": failed to recover ceid " ++
          ceid ++ " (must be inserted into timeout queue manually):")⟩ := by
  simp [timeoutCrawlExecutionsLoop, h, hrb]

/-- Every id left in the timeout queue after a drain cycle was already in the
queue before it (the loop only pops, and pushes back only popped ids). -/
lemma timeoutLoop_queue_subset {σ : Type}
    (upd : σ → String → σ × Nat × Option String)
    (rollback : String → Option String) (queue : List String) :
    ∀ (s : σ) (count : Nat),
      (timeoutCrawlExecutionsLoop upd rollback queue s count).queue ⊆ queue := by
  induction queue with
  | nil => intro s count; simp [timeoutCrawlExecutionsLoop]
  | cons ceid rest ih =>
    intro s count
    rcases h : upd s ceid with ⟨s2, n, eOpt⟩
    cases eOpt with
    | none =>
      rw [timeoutLoop_cons_ok upd rollback ceid rest s count s2 n h]
      exact (ih s2 (count + n)).trans (List.subset_cons_self ceid rest)
    | some e =>
      cases hrb : rollback ceid with
      | none =>
        rw [timeoutLoop_cons_rollback_ok upd rollback ceid rest s count s2 n e h hrb]
        intro x hx
        simp only [List.mem_append, List.mem_singleton] at hx
        simp only [List.mem_cons]
        tauto
      | some re =>
        rw [timeoutLoop_cons_rollback_fail upd rollback ceid rest s count s2 n e re h hrb]
        exact List.subset_cons_self ceid rest

/-- A concrete durable-update oracle for the two-entry scenario: the state
counts the calls made; the update succeeds for C1 with one replaced row and
fails for C2 with a transport error. -/
def updC2Fails : Nat → String → Nat × Nat × Option String :=
  fun s ceid =>
    if ceid = "C1" then (s + 1, 1, none) else (s + 1, 0, some "update failed")

/-- A recovery push that always succeeds. -/
def rollbackOk : String → Option String := fun _ => none

/-- A recovery push that always fails. -/
def rollbackFails : String → Option String := fun _ => some "redis down"

/-- Counterexample to C2 as stated: in the two-entry scenario (update
succeeds for C1, fails for C2, recovery push succeeds) the operation returns
a nil error, not the update error. -/
theorem TimeoutCrawlExecutions_error_not_returned_cex :
    (TimeoutCrawlExecutions updC2Fails rollbackOk ["C1", "C2"] 0).err = none ∧
    (updC2Fails 1 "C2").2.2 = some "update failed" := by
  exact ⟨rfl, rfl⟩

/-- C2 (amended): when the durable update for a popped id fails and the
recovery push succeeds, the id is pushed back to the tail of the timeout
queue, draining stops immediately, and the operation returns the partial
success count with a nil error (the update error is discarded after a
successful rollback); on update success draining continues with the replaced
count added; in the two-entry scenario the operation returns 1 with no error
and leaves the timeout queue equal to [C2]. -/
theorem TimeoutCrawlExecutions_rollback_requeue {σ : Type}
    (upd : σ → String → σ × Nat × Option String)
    (rollback : String → Option String) :
    (∀ (ceid : String) (rest : List String) (s : σ) (count : Nat) (s2 : σ)
        (n : Nat) (e : String),
      upd s ceid = (s2, n, some e) → rollback ceid = none →
      timeoutCrawlExecutionsLoop upd rollback (ceid :: rest) s count =
        ⟨s2, count, rest ++ [ceid], none⟩) ∧
    (∀ (ceid : String) (rest : List String) (s : σ) (count : Nat) (s2 : σ)
        (n : Nat),
      upd s ceid = (s2, n, none) →
      timeoutCrawlExecutionsLoop upd rollback (ceid :: rest) s count =
        timeoutCrawlExecutionsLoop upd rollback rest s2 (count + n)) ∧
    (∀ (s s1 s2 : σ) (n : Nat) (e : String),
      upd s "C1" = (s1, 1, none) → upd s1 "C2" = (s2, n, some e) →
      rollback "C2" = none →
      TimeoutCrawlExecutions upd rollback ["C1", "C2"] s =
        ⟨s2, 1, ["C2"], none⟩) := by
  refine ⟨?_, ?_, ?_⟩
  · intro ceid rest s count s2 n e h hrb
    exact timeoutLoop_cons_rollback_ok upd rollback ceid rest s count s2 n e h hrb
  · intro ceid rest s count s2 n h
    exact timeoutLoop_cons_ok upd rollback ceid rest s count s2 n h
  · intro s s1 s2 n e h1 h2 hrb
    unfold TimeoutCrawlExecutions
    rw [timeoutLoop_cons_ok upd rollback "C1" ["C2"] s 0 s1 1 h1]
    rw [timeoutLoop_cons_rollback_ok upd rollback "C2" [] s1 (0 + 1) s2 n e h2 hrb]
    simp

/-- Witness for C2 (amended): the concrete two-entry scenario returns 1, a
nil error, and the queue [C2]. -/
theorem TimeoutCrawlExecutions_rollback_requeue_witness :
    TimeoutCrawlExecutions updC2Fails rollbackOk ["C1", "C2"] 0 =
      ⟨2, 1, ["C2"], none⟩ :=
  (TimeoutCrawlExecutions_rollback_requeue updC2Fails rollbackOk).2.2
    0 1 2 0 "update failed" rfl rfl rfl

/-- C9: when the durable update for a popped id fails and the recovery push
back onto the timeout queue also fails, the operation returns the partial
success count together with an error that spells out the update error, the
rollback error, the lost ceid, and that it must be reinserted into the
timeout queue manually. -/
theorem TimeoutCrawlExecutions_rollback_failure_fatal {σ : Type}
    (upd : σ → String → σ × Nat × Option String)
    (rollback : String → Option String) (ceid : String) (rest : List String)
    (s : σ) (count : Nat) (s2 : σ) (n : Nat) (e rollbackErr : String)
    (hupd : upd s ceid = (s2, n, some e))
    (hrb : rollback ceid = some rollbackErr) :
    timeoutCrawlExecutionsLoop upd rollback (ceid :: rest) s count =
      ⟨s2, count, rest,
        some (e ++ ":  " ++ rollbackErr ++ ": failed to recover ceid " ++
          ceid ++ " (must be inserted into timeout queue manually):")⟩ := by
  simp [timeoutCrawlExecutionsLoop, hupd, hrb]

/-- Witness for C9: concrete drain of the one-entry queue [C2] where both
the update and the recovery push fail. -/
theorem TimeoutCrawlExecutions_rollback_failure_fatal_witness :
    TimeoutCrawlExecutions updC2Fails rollbackFails ["C2"] 0 =
      ⟨1, 0, [],
        some "update failed:  redis down: failed to recover ceid C2 (must be inserted into timeout queue manually):"⟩ :=
  TimeoutCrawlExecutions_rollback_failure_fatal updC2Fails rollbackFails
    "C2" [] 0 0 1 0 "update failed" "redis down" rfl rfl

/-- Plugs the pure document semantics of setCrawlExecutionStateAbortedTimeout
into the drain loop's oracle (the transport reporting no error). -/
def setCrawlExecutionStep (store : Store CrawlExecution) (ceid : String) :
    Store CrawlExecution × Nat × Option String :=
  ((setCrawlExecutionStateAbortedTimeout store ceid).1,
   (setCrawlExecutionStateAbortedTimeout store ceid).2, none)

/-- C10: popping an id whose durable record has endTime set leaves the store
untouched with zero replaced rows, contributes 0 to the count, and draining
continues with the rest of the queue; the id is not pushed back, so (if it is
not queued again further back) it is gone from the timeout queue for good. -/
theorem TimeoutCrawlExecutions_finished_execution_dropped
    (store : Store CrawlExecution) (rollback : String → Option String)
    (ceid : String) (rest : List String) (count : Nat) (doc : CrawlExecution)
    (hget : storeGet store ceid = some doc) (hend : doc.endTime.isSome = true) :
    setCrawlExecutionStateAbortedTimeout store ceid = (store, 0) ∧
    timeoutCrawlExecutionsLoop setCrawlExecutionStep rollback (ceid :: rest)
        store count =
      timeoutCrawlExecutionsLoop setCrawlExecutionStep rollback rest store count ∧
    (ceid ∉ rest →
      ceid ∉ (timeoutCrawlExecutionsLoop setCrawlExecutionStep rollback
        (ceid :: rest) store count).queue) := by
  have hnoop : setCrawlExecutionStateAbortedTimeout store ceid = (store, 0) := by
    simp [setCrawlExecutionStateAbortedTimeout, hget, hend]
  have hstep : setCrawlExecutionStep store ceid = (store, 0, none) := by
    simp [setCrawlExecutionStep, hnoop]
  have hcons := timeoutLoop_cons_ok setCrawlExecutionStep rollback ceid rest
    store count store 0 hstep
  rw [Nat.add_zero] at hcons
  refine ⟨hnoop, hcons, ?_⟩
  intro hnotin hmem
  rw [hcons] at hmem
  exact hnotin
    (timeoutLoop_queue_subset setCrawlExecutionStep rollback rest store count hmem)

/-- Witness for C10: a two-entry queue whose first execution already carries
an endTime; it is dropped with zero contribution and the drain proceeds to
abort the second execution. -/
theorem TimeoutCrawlExecutions_finished_execution_dropped_witness :
    setCrawlExecutionStateAbortedTimeout
      [("C1", ⟨some "2021-01-01", none⟩), ("C2", ⟨none, none⟩)] "C1" =
      ([("C1", ⟨some "2021-01-01", none⟩), ("C2", ⟨none, none⟩)], 0) ∧
    "C1" ∉ (timeoutCrawlExecutionsLoop setCrawlExecutionStep rollbackOk
      ["C1", "C2"]
      [("C1", ⟨some "2021-01-01", none⟩), ("C2", ⟨none, none⟩)] 0).queue := by
  have h := TimeoutCrawlExecutions_finished_execution_dropped
    [("C1", ⟨some "2021-01-01", none⟩), ("C2", ⟨none, none⟩)] rollbackOk
    "C1" ["C2"] 0 ⟨some "2021-01-01", none⟩ rfl rfl
  exact ⟨h.1, h.2.2 (by decide)⟩

/-- C7: setCrawlExecutionStateAbortedTimeout on a record whose endTime is
present leaves the durable store untouched; on a record with endTime absent
it sets desiredState to ABORTED_TIMEOUT. -/
theorem setCrawlExecutionStateAbortedTimeout_endTime_guard
    (store : Store CrawlExecution) (ceid : String) (doc : CrawlExecution)
    (hget : storeGet store ceid = some doc) :
    (doc.endTime.isSome = true →
      setCrawlExecutionStateAbortedTimeout store ceid = (store, 0)) ∧
    (doc.endTime = none →
      storeGet (setCrawlExecutionStateAbortedTimeout store ceid).1 ceid =
        some ⟨none, some "ABORTED_TIMEOUT"⟩) := by
  obtain ⟨et, ds⟩ := doc
  constructor
  · intro hend
    simp [setCrawlExecutionStateAbortedTimeout, hget, hend]
  · intro hend
    simp only at hend
    subst hend
    by_cases hsame : ds = some "ABORTED_TIMEOUT"
    · simp [setCrawlExecutionStateAbortedTimeout, hget, hsame]
    · simp [setCrawlExecutionStateAbortedTimeout, hget, hsame,
        Ne.symm hsame, CrawlExecution.mk.injEq]
      exact storeGet_storeSet_self store ceid _ _ hget

/-- Witness for C7 at a concrete store: the finished execution C1 is left
alone and the unfinished execution C2 gets the timeout-abort desired state. -/
theorem setCrawlExecutionStateAbortedTimeout_endTime_guard_witness :
    setCrawlExecutionStateAbortedTimeout
      [("C1", ⟨some "2021-01-01", none⟩), ("C2", ⟨none, none⟩)] "C1" =
      ([("C1", ⟨some "2021-01-01", none⟩), ("C2", ⟨none, none⟩)], 0) ∧
    storeGet (setCrawlExecutionStateAbortedTimeout
      [("C1", ⟨some "2021-01-01", none⟩), ("C2", ⟨none, none⟩)] "C2").1 "C2" =
      some ⟨none, some "ABORTED_TIMEOUT"⟩ :=
  ⟨(setCrawlExecutionStateAbortedTimeout_endTime_guard
      [("C1", ⟨some "2021-01-01", none⟩), ("C2", ⟨none, none⟩)] "C1"
      ⟨some "2021-01-01", none⟩ (by decide)).1 rfl,
   (setCrawlExecutionStateAbortedTimeout_endTime_guard
      [("C1", ⟨some "2021-01-01", none⟩), ("C2", ⟨none, none⟩)] "C2"
      ⟨none, none⟩ (by decide)).2 rfl⟩

/-- Result of one UpdateJobExecutions cycle: the durable-store state, the
returned count and the returned error. -/
structure JobUpdateResult (σ : Type) where
  store : σ
  count : Nat
  err : Option String
deriving DecidableEq

/-- Embeds the scan loop of UpdateJobExecutions (database.go).  The decoded
cache entries (the output of getJobExecutionStatuses) are the list argument;
`upd` abstracts updateJobExecution behind the retrying execWrite transport.
On success the loop continues with count += replaced; on failure it returns
the replaced value reported by the failing call together with the wrapped
error. -/
def updateJobExecutionsLoop {σ : Type}
    (upd : σ → JobExecutionStatus → σ × Nat × Option String) :
    List JobExecutionStatus → σ → Nat → JobUpdateResult σ
  | [], s, count => ⟨s, count, none⟩
  | jes :: rest, s, count =>
    match upd s jes with
    | (s2, replaced, none) =>
      updateJobExecutionsLoop upd rest s2 (count + replaced)
    | (s2, replaced, some e) =>
      ⟨s2, replaced, some ("failed to update job execution status: " ++ e)⟩

/-- Embeds UpdateJobExecutions (database.go): the scan loop started with
count = 0. -/
def UpdateJobExecutions {σ : Type}
    (upd : σ → JobExecutionStatus → σ × Nat × Option String)
    (jess : List JobExecutionStatus) (s : σ) : JobUpdateResult σ :=
  updateJobExecutionsLoop upd jess s 0

lemma jobLoop_cons_ok {σ : Type} (upd : σ → JobExecutionStatus → σ × Nat × Option String)
    (jes : JobExecutionStatus) (rest : List JobExecutionStatus) (s : σ)
    (count : Nat) (s2 : σ) (n : Nat) (h : upd s jes = (s2, n, none)) :
    updateJobExecutionsLoop upd (jes :: rest) s count =
    updateJobExecutionsLoop upd rest s2 (count + n) := by
  simp [updateJobExecutionsLoop, h]

lemma jobLoop_cons_err {σ : Type} (upd : σ → JobExecutionStatus → σ × Nat × Option String)
    (jes : JobExecutionStatus) (rest : List JobExecutionStatus) (s : σ)
    (count : Nat) (s2 : σ) (n : Nat) (e : String)
    (h : upd s jes = (s2, n, some e)) :
    updateJobExecutionsLoop upd (jes :: rest) s count =
      ⟨s2, n, some ("failed to update job execution status: " ++ e)⟩ := by
  simp [updateJobExecutionsLoop, h]

/-- Plugs the pure document semantics of updateJobExecution into the scan
loop's oracle (the transport reporting no error). -/
def updateJobExecutionStep (s : Store JobExecutionDoc) (jes : JobExecutionStatus) :
    Store JobExecutionDoc × Nat × Option String :=
  ((updateJobExecution s jes).1, (updateJobExecution s jes).2, none)

/-- A single conditional update never touches a record whose durable state is
terminal, whichever cache entry drives it. -/
lemma updateJobExecution_preserves_terminal (s : Store JobExecutionDoc)
    (jes : JobExecutionStatus) (id : String) (doc : JobExecutionDoc)
    (hget : storeGet s id = some doc)
    (hterm : doc.state ∈ terminalJobStates) :
    storeGet (updateJobExecution s jes).1 id = some doc := by
  unfold updateJobExecution
  cases hg : storeGet s jes.id with
  | none => simpa [hg] using hget
  | some d =>
    by_cases ht : d.state ∈ terminalJobStates
    · simpa [hg, ht] using hget
    · by_cases hsame : (⟨d.state, jes.values⟩ : JobExecutionDoc) = d
      · simpa [hg, ht, hsame] using hget
      · simp only [hg, ht, hsame, Bool.false_eq_true, if_false, if_neg hsame]
        by_cases hid : jes.id = id
        · exfalso
          rw [hid, hget] at hg
          cases hg
          exact ht hterm
        · rw [storeGet_storeSet_ne s jes.id id _ hid]
          exact hget

/-- Terminal records survive the whole pure scan cycle untouched. -/
lemma jobLoop_terminal_preserved (jess : List JobExecutionStatus) :
    ∀ (s : Store JobExecutionDoc) (count : Nat) (id : String)
      (doc : JobExecutionDoc),
      storeGet s id = some doc → doc.state ∈ terminalJobStates →
      storeGet (updateJobExecutionsLoop updateJobExecutionStep jess s count).store
        id = some doc := by
  induction jess with
  | nil =>
    intro s count id doc hget hterm
    simpa [updateJobExecutionsLoop] using hget
  | cons jes rest ih =>
    intro s count id doc hget hterm
    rw [jobLoop_cons_ok updateJobExecutionStep jes rest s count
      (updateJobExecution s jes).1 (updateJobExecution s jes).2 rfl]
    exact ih _ _ id doc
      (updateJobExecution_preserves_terminal s jes id doc hget hterm) hterm

/-- C3: a job execution whose durable state is terminal is never overwritten
by an UpdateJobExecutions cycle, no matter what the cache reports; a job
execution in a non-terminal state is overwritten with the freshly aggregated
cache values (its state field untouched, since the cache hash carries no
state field). -/
theorem UpdateJobExecutions_terminal_immutable :
    (∀ (s : Store JobExecutionDoc) (jess : List JobExecutionStatus)
        (id : String) (doc : JobExecutionDoc),
      storeGet s id = some doc → doc.state ∈ terminalJobStates →
      storeGet (UpdateJobExecutions updateJobExecutionStep jess s).store id =
        some doc) ∧
    (∀ (s : Store JobExecutionDoc) (jes : JobExecutionStatus)
        (doc : JobExecutionDoc),
      storeGet s jes.id = some doc →
      doc.state ∉ terminalJobStates →
      storeGet (updateJobExecution s jes).1 jes.id =
        some ⟨doc.state, jes.values⟩) := by
  constructor
  · intro s jess id doc hget hterm
    exact jobLoop_terminal_preserved jess s 0 id doc hget hterm
  · intro s jes doc hget hterm
    by_cases hsame : (⟨doc.state, jes.values⟩ : JobExecutionDoc) = doc
    · simp [updateJobExecution, hget, hterm, hsame]
    · simp [updateJobExecution, hget, hterm, hsame]
      exact storeGet_storeSet_self s jes.id _ _ hget

/-- Concrete durable table for the C3 witness: J1 finished, J2 running. -/
def sampleJobStore : Store JobExecutionDoc :=
  [("J1", ⟨"FINISHED", [("documentsCrawled", 5)]⟩),
   ("J2", ⟨"RUNNING", [("documentsCrawled", 1)]⟩)]

/-- Concrete cache scan for the C3 witness, reporting fresher counters for
both jobs. -/
def sampleJess : List JobExecutionStatus :=
  [⟨"J1", [("documentsCrawled", 9)]⟩, ⟨"J2", [("documentsCrawled", 3)]⟩]

/-- Witness for C3: the finished J1 keeps its stale durable counters through
a full cycle, while a single update overwrites the running J2 with the cache
values. -/
theorem UpdateJobExecutions_terminal_immutable_witness :
    storeGet (UpdateJobExecutions updateJobExecutionStep sampleJess
        sampleJobStore).store "J1" =
      some ⟨"FINISHED", [("documentsCrawled", 5)]⟩ ∧
    storeGet (updateJobExecution sampleJobStore
        ⟨"J2", [("documentsCrawled", 3)]⟩).1 "J2" =
      some ⟨"RUNNING", [("documentsCrawled", 3)]⟩ :=
  ⟨UpdateJobExecutions_terminal_immutable.1 sampleJobStore sampleJess "J1"
      ⟨"FINISHED", [("documentsCrawled", 5)]⟩ (by decide) (by decide),
   UpdateJobExecutions_terminal_immutable.2 sampleJobStore
      ⟨"J2", [("documentsCrawled", 3)]⟩
      ⟨"RUNNING", [("documentsCrawled", 1)]⟩ (by decide) (by decide)⟩

/-- A concrete durable-update oracle for the two-key scan scenario: the state
counts the calls made; the update succeeds for J1 with one replaced row and
fails for J2 with a transport error. -/
def updJ2Fails : Nat → JobExecutionStatus → Nat × Nat × Option String :=
  fun s jes =>
    if jes.id = "J1" then (s + 1, 1, none) else (s + 1, 0, some "connection closed")

/-- Counterexample to C4 as stated: with keys [J1, J2], one record already
successfully updated (replaced = 1 for J1) when the J2 update fails, the
cycle returns count 0 — the replaced value of the failing call — not the
accumulated count 1. -/
theorem UpdateJobExecutions_partial_count_cex :
    UpdateJobExecutions updJ2Fails [⟨"J1", []⟩, ⟨"J2", []⟩] 0 =
      ⟨2, 0, some "failed to update job execution status: connection closed"⟩ ∧
    updJ2Fails 0 ⟨"J1", []⟩ = (1, 1, none) := by
  exact ⟨rfl, rfl⟩

/-- C4 (amended): UpdateJobExecutions iterates the keys sequentially; on
success it continues with count += replaced; when the durable update for one
key fails it aborts the whole cycle and returns the replaced value reported
by the failing call — discarding the count of successfully-updated records
accumulated so far — together with the wrapped error. -/
theorem UpdateJobExecutions_abort_on_error {σ : Type}
    (upd : σ → JobExecutionStatus → σ × Nat × Option String) :
    (∀ (jes : JobExecutionStatus) (rest : List JobExecutionStatus) (s : σ)
        (count : Nat) (s2 : σ) (n : Nat),
      upd s jes = (s2, n, none) →
      updateJobExecutionsLoop upd (jes :: rest) s count =
        updateJobExecutionsLoop upd rest s2 (count + n)) ∧
    (∀ (jes : JobExecutionStatus) (rest : List JobExecutionStatus) (s : σ)
        (count : Nat) (s2 : σ) (n : Nat) (e : String),
      upd s jes = (s2, n, some e) →
      updateJobExecutionsLoop upd (jes :: rest) s count =
        ⟨s2, n, some ("failed to update job execution status: " ++ e)⟩) := by
  constructor
  · intro jes rest s count s2 n h
    exact jobLoop_cons_ok upd jes rest s count s2 n h
  · intro jes rest s count s2 n e h
    exact jobLoop_cons_err upd jes rest s count s2 n e h

/-- Witness for C4 (amended): the concrete two-key scan returns the failing
call's replaced value 0 and the wrapped error. -/
theorem UpdateJobExecutions_abort_on_error_witness :
    updateJobExecutionsLoop updJ2Fails [⟨"J2", []⟩] 1 1 =
      ⟨2, 0, some "failed to update job execution status: connection closed"⟩ :=
  (UpdateJobExecutions_abort_on_error updJ2Fails).2
    ⟨"J2", []⟩ [] 1 1 2 0 "connection closed" rfl

/-- Result of one RemoveFromUriQueue cycle: the durable-store state, the
REMURI removal queue left behind, the returned deleted count and the
returned error. -/
structure RemUriResult (σ : Type) where
  store : σ
  queue : List String
  removed : Nat
  err : Option String
deriving DecidableEq

/-- Embeds the redis call LRANGE key start stop (inclusive 0-based range from
the left end). -/
def lrange (q : List String) (start stop : Nat) : List String :=
  (q.drop start).take (stop + 1 - start)

/-- Embeds the redis call LREM key 1 value: remove the first occurrence of
value, scanning from the left end. -/
def lrem1 : List String → String → List String
  | [], _ => []
  | y :: ys, x => if y = x then ys else y :: lrem1 ys x

/-- Embeds deleteFromRemoveQueue (database.go): one pipelined
LREM(REMURI, 1, uriId) per id of the batch. -/
def deleteFromRemoveQueue (queue : List String) (uriIds : List String) :
    List String :=
  uriIds.foldl lrem1 queue

/-- Embeds RemoveFromUriQueue (database.go).  The REMURI list is the queue
argument; `removeQueuedUris` abstracts the bulk soft-durability delete on the
uri_queue table behind the retrying execWrite transport, returning the
post-state, the deleted row count and an optional error.  Reads up to 10000
ids; returns 0 at once when none; on bulk-delete failure returns the
zero-or-partial deleted count with the wrapped error and leaves the REMURI
queue untouched; on success removes every id of the batch from REMURI and
returns the deleted count. -/
def RemoveFromUriQueue {σ : Type}
    (removeQueuedUris : σ → List String → σ × Nat × Option String)
    (queue : List String) (s : σ) : RemUriResult σ :=
  let uriIds := lrange queue 0 9999
  if uriIds.isEmpty then ⟨s, queue, 0, none⟩
  else
    match removeQueuedUris s uriIds with
    | (s2, removed, some e) =>
      ⟨s2, queue, removed,
        some ("removed " ++ toString removed ++ " of " ++
          toString uriIds.length ++ " queued uris: " ++ e)⟩
    | (s2, removed, none) =>
      ⟨s2, deleteFromRemoveQueue queue uriIds, removed, none⟩

lemma lrange_head (q : List String) : lrange q 0 9999 = q.take 10000 := by
  simp [lrange]

/-- Removing a batch that sits at the front of a duplicate-free list leaves
exactly the remainder of the list. -/
lemma deleteFromRemoveQueue_front (xs ys : List String)
    (h : (xs ++ ys).Nodup) : deleteFromRemoveQueue (xs ++ ys) xs = ys := by
  induction xs with
  | nil => simp [deleteFromRemoveQueue]
  | cons x xs ih =>
    have hx : x ∉ xs ++ ys := (List.nodup_cons.mp h).1
    have ht : (xs ++ ys).Nodup := (List.nodup_cons.mp h).2
    simp only [deleteFromRemoveQueue, List.cons_append, List.foldl_cons]
    have hstep : lrem1 (x :: (xs ++ ys)) x = xs ++ ys := by simp [lrem1]
    rw [hstep]
    exact ih ht

/-- C5: on a non-empty removal queue, a failed bulk delete surfaces the
zero-or-partial deleted count with the wrapped error and removes nothing
from the REMURI queue; a successful bulk delete removes every id of the
originally-read batch from the REMURI queue whatever row count the delete
reported. -/
theorem RemoveFromUriQueue_retry_semantics {σ : Type}
    (removeQueuedUris : σ → List String → σ × Nat × Option String)
    (queue : List String) (s : σ) (hne : queue ≠ []) :
    (∀ (s2 : σ) (removed : Nat) (e : String),
      removeQueuedUris s (queue.take 10000) = (s2, removed, some e) →
      RemoveFromUriQueue removeQueuedUris queue s =
        ⟨s2, queue, removed,
          some ("removed " ++ toString removed ++ " of " ++
            toString (queue.take 10000).length ++ " queued uris: " ++ e)⟩) ∧
    (∀ (s2 : σ) (removed : Nat),
      queue.Nodup →
      removeQueuedUris s (queue.take 10000) = (s2, removed, none) →
      RemoveFromUriQueue removeQueuedUris queue s =
        ⟨s2, queue.drop 10000, removed, none⟩ ∧
      ∀ id ∈ queue.take 10000, id ∉ queue.drop 10000) := by
  have htake : queue.take 10000 ≠ [] := by
    simp [List.take_eq_nil_iff, hne]
  have hni : (lrange queue 0 9999).isEmpty = false := by
    rw [lrange_head]
    exact List.isEmpty_eq_false.mpr htake
  constructor
  · intro s2 removed e h
    simp [RemoveFromUriQueue, lrange_head, hni, hne, h]
  · intro s2 removed hnd h
    have hsplit := List.take_append_drop 10000 queue
    have hnd2 : (queue.take 10000 ++ queue.drop 10000).Nodup := by
      rw [hsplit]; exact hnd
    have hdel := deleteFromRemoveQueue_front (queue.take 10000)
      (queue.drop 10000) hnd2
    rw [hsplit] at hdel
    constructor
    · simp [RemoveFromUriQueue, lrange_head, hni, hne, h, hdel]
    · intro id hid
      exact fun hid2 => List.disjoint_of_nodup_append hnd2 hid hid2

/-- A concrete bulk delete that always fails with a transport error. -/
def delFails : Nat → List String → Nat × Nat × Option String :=
  fun s _ => (s + 1, 0, some "rethinkdb down")

/-- A concrete bulk delete that succeeds, reporting every row deleted. -/
def delOk : Nat → List String → Nat × Nat × Option String :=
  fun s uriIds => (s + 1, uriIds.length, none)

/-- Witness for C5 on the two-id queue [u1, u2]: a failed bulk delete leaves
the queue untouched and surfaces the wrapped error; a successful bulk delete
empties the queue and returns the deleted count. -/
theorem RemoveFromUriQueue_retry_semantics_witness :
    RemoveFromUriQueue delFails ["u1", "u2"] 0 =
      ⟨1, ["u1", "u2"], 0, some "removed 0 of 2 queued uris: rethinkdb down"⟩ ∧
    RemoveFromUriQueue delOk ["u1", "u2"] 0 = ⟨1, [], 2, none⟩ := by
  have htake : (["u1", "u2"] : List String).take 10000 = ["u1", "u2"] :=
    List.take_of_length_le (by simp)
  have hdrop : (["u1", "u2"] : List String).drop 10000 = [] := by
    apply List.drop_eq_nil_of_le
    simp
  constructor
  · have h := (RemoveFromUriQueue_retry_semantics delFails ["u1", "u2"] 0
      (by simp)).1 1 0 "rethinkdb down" (by rw [htake]; rfl)
    rw [h, htake]
    rfl
  · have h := ((RemoveFromUriQueue_retry_semantics delOk ["u1", "u2"] 0
      (by simp)).2 1 2 (by simp) (by rw [htake]; rfl)).1
    rw [h, hdrop]

/-- C6: RemoveFromUriQueue reads at most 10000 ids per invocation however
long the removal queue is, and on an empty removal queue it returns 0 with
no further store interaction (the durable state is handed back untouched for
every delete oracle). -/
theorem RemoveFromUriQueue_bounded_read :
    (∀ queue : List String, (lrange queue 0 9999).length ≤ 10000) ∧
    (∀ (σ : Type) (removeQueuedUris : σ → List String → σ × Nat × Option String)
        (s : σ),
      RemoveFromUriQueue removeQueuedUris [] s = ⟨s, [], 0, none⟩) := by
  constructor
  · intro queue
    rw [lrange_head, List.length_take]
    exact min_le_left _ _
  · intro σ removeQueuedUris s
    rfl

end Veidemann
